import Mathlib

/-!
Shallow embedding of the playerctl wrapper library (src/lib.rs).

Strings are modelled as `List Char`; raw process output bytes as `List Nat`.
Rust standard-library operations used by the source (str::lines, str::trim,
str::trim_ascii_start, str::split_once, u64::from_str, String::from_utf8_lossy,
String::from_utf8) and the urlencoding crate's decode (version 2.x, whose
error type is std::string::FromUtf8Error, matching the #[from] in the source's
error enum) are modelled faithfully below.
-/

/-- ASCII whitespace predicate, as used by Rust str::trim_ascii_start
(space, tab, newline, form feed, carriage return). -/
def isAsciiWs (c : Char) : Bool :=
  c = ' ' || c = Char.ofNat 9 || c = Char.ofNat 10 || c = Char.ofNat 12 || c = Char.ofNat 13

/-- Unicode White_Space predicate, as used by Rust str::trim
(char::is_whitespace). -/
def isRustWs (c : Char) : Bool :=
  let n := c.toNat
  (9 ≤ n && n ≤ 13) || n = 32 || n = 0x85 || n = 0xA0 || n = 0x1680 ||
  (0x2000 ≤ n && n ≤ 0x200A) || n = 0x2028 || n = 0x2029 || n = 0x202F ||
  n = 0x205F || n = 0x3000

/-- Rust str::trim - remove leading and trailing Unicode whitespace. -/
def rustTrim (l : List Char) : List Char :=
  ((l.dropWhile isRustWs).reverse.dropWhile isRustWs).reverse

/-- Rust str::split_once with a single-character pattern: split at the first
occurrence of the character, the character itself removed; none if absent. -/
def splitOnce (sep : Char) : List Char → Option (List Char × List Char)
  | [] => none
  | c :: rest =>
    if c = sep then some ([], rest)
    else
      match splitOnce sep rest with
      | some (a, b) => some (c :: a, b)
      | none => none

/-- Rust str::split_once with a multi-character pattern: split at the first
occurrence of the pattern, the pattern removed; none if absent. -/
def splitOnceSeq (pat : List Char) : List Char → Option (List Char × List Char)
  | [] => if pat.isPrefixOf ([] : List Char) then some ([], []) else none
  | c :: rest =>
    if pat.isPrefixOf (c :: rest) then some ([], (c :: rest).drop pat.length)
    else
      match splitOnceSeq pat rest with
      | some (a, b) => some (c :: a, b)
      | none => none

/-- Split a character list at every newline character (keeping empty
segments; an input without newlines yields one segment). -/
def splitOnNl : List Char → List (List Char)
  | [] => [[]]
  | c :: rest =>
    if c = Char.ofNat 10 then [] :: splitOnNl rest
    else
      match splitOnNl rest with
      | [] => [[c]]
      | l :: ls => (c :: l) :: ls

/-- Remove one trailing carriage return, as Rust str::lines does per line. -/
def stripCr (l : List Char) : List Char :=
  if l.getLast? = some (Char.ofNat 13) then l.dropLast else l

/-- Rust str::lines: split on newline; a final trailing newline does not
produce an extra empty line; each line loses one trailing carriage return. -/
def rustLines (l : List Char) : List (List Char) :=
  let ps := splitOnNl l
  let ps := if ps.getLast? = some [] then ps.dropLast else ps
  ps.map stripCr

/-- Numeric value of a list of ASCII digits, most significant first. -/
def digitsToNat (l : List Char) : Nat :=
  l.foldl (fun acc c => acc * 10 + (c.toNat - 48)) 0

/-- Rust u64::from_str: an optional leading plus sign, then one or more ASCII
digits, nothing else; values of 2^64 or more overflow and fail. -/
def parseU64 (l : List Char) : Option Nat :=
  let s := match l with
    | '+' :: rest => rest
    | _ => l
  if s = [] then none
  else if s.all Char.isDigit then
    let n := digitsToNat s
    if n < 2 ^ 64 then some n else none
  else none

/-- Value of one hexadecimal digit character, as urlencoding's from_hex_digit. -/
def hexVal (b : Nat) : Option Nat :=
  if 48 ≤ b ∧ b ≤ 57 then some (b - 48)
  else if 65 ≤ b ∧ b ≤ 70 then some (b - 55)
  else if 97 ≤ b ∧ b ≤ 102 then some (b - 87)
  else none

/-- UTF-8 encoding of one character. -/
def charUtf8 (c : Char) : List Nat :=
  let n := c.toNat
  if n < 0x80 then [n]
  else if n < 0x800 then [0xC0 + n / 0x40, 0x80 + n % 0x40]
  else if n < 0x10000 then
    [0xE0 + n / 0x1000, 0x80 + (n / 0x40) % 0x40, 0x80 + n % 0x40]
  else
    [0xF0 + n / 0x40000, 0x80 + (n / 0x1000) % 0x40, 0x80 + (n / 0x40) % 0x40,
     0x80 + n % 0x40]

/-- UTF-8 encoding of a character list, as Rust str::as_bytes. -/
def utf8Encode (l : List Char) : List Nat :=
  l.flatMap charUtf8

/-- Percent-decoding of a byte list, as urlencoding::decode_binary (2.x):
a percent sign followed by two hex digits becomes the denoted byte; malformed
escape sequences are kept verbatim; never fails. Fuel-driven so that the
recursion (which may restart inside a partially consumed escape) is
structural; the fuel is the input length, which always suffices. -/
def decodeBinaryAux : Nat → List Nat → List Nat
  | 0, l => l
  | _ + 1, [] => []
  | fuel + 1, b :: rest =>
    if b = 37 then
      match rest with
      | b1 :: b2 :: rest2 =>
        match hexVal b1, hexVal b2 with
        | some h1, some h2 => (h1 * 16 + h2) :: decodeBinaryAux fuel rest2
        | some _, none => 37 :: b1 :: decodeBinaryAux fuel (b2 :: rest2)
        | none, _ => 37 :: decodeBinaryAux fuel rest
      | _ => b :: rest
    else b :: decodeBinaryAux fuel rest

/-- Percent-decoding of a byte list (urlencoding::decode_binary). -/
def decodeBinary (l : List Nat) : List Nat :=
  decodeBinaryAux l.length l

/-- Whether a byte is a UTF-8 continuation byte. -/
def isCont (b : Nat) : Bool := 0x80 ≤ b && b < 0xC0

/-- Constraint on the second byte of a three-byte UTF-8 sequence (excludes
overlong forms and surrogates). -/
def cont3ok (b0 b1 : Nat) : Bool :=
  if b0 = 0xE0 then 0xA0 ≤ b1 && b1 < 0xC0
  else if b0 = 0xED then 0x80 ≤ b1 && b1 < 0xA0
  else isCont b1

/-- Constraint on the second byte of a four-byte UTF-8 sequence (excludes
overlong forms and values beyond U+10FFFF). -/
def cont4ok (b0 b1 : Nat) : Bool :=
  if b0 = 0xF0 then 0x90 ≤ b1 && b1 < 0xC0
  else if b0 = 0xF4 then 0x80 ≤ b1 && b1 < 0x90
  else isCont b1

/-- The Unicode replacement character U+FFFD. -/
def repl : Char := Char.ofNat 0xFFFD

/-- Lossy UTF-8 decoding, as Rust String::from_utf8_lossy: every maximal
invalid subsequence is replaced by U+FFFD; total on arbitrary byte lists. -/
def utf8Lossy : List Nat → List Char
  | [] => []
  | b0 :: rest =>
    if b0 < 0x80 then Char.ofNat b0 :: utf8Lossy rest
    else if b0 < 0xC2 then repl :: utf8Lossy rest
    else if b0 < 0xE0 then
      match rest with
      | [] => [repl]
      | b1 :: rest2 =>
        if isCont b1 then
          Char.ofNat ((b0 - 0xC0) * 0x40 + (b1 - 0x80)) :: utf8Lossy rest2
        else repl :: utf8Lossy (b1 :: rest2)
    else if b0 < 0xF0 then
      match rest with
      | [] => [repl]
      | b1 :: rest2 =>
        if cont3ok b0 b1 then
          match rest2 with
          | [] => [repl]
          | b2 :: rest3 =>
            if isCont b2 then
              Char.ofNat ((b0 - 0xE0) * 0x1000 + (b1 - 0x80) * 0x40 + (b2 - 0x80)) ::
                utf8Lossy rest3
            else repl :: utf8Lossy (b2 :: rest3)
        else repl :: utf8Lossy (b1 :: rest2)
    else if b0 < 0xF5 then
      match rest with
      | [] => [repl]
      | b1 :: rest2 =>
        if cont4ok b0 b1 then
          match rest2 with
          | [] => [repl]
          | b2 :: rest3 =>
            if isCont b2 then
              match rest3 with
              | [] => [repl]
              | b3 :: rest4 =>
                if isCont b3 then
                  Char.ofNat ((b0 - 0xF0) * 0x40000 + (b1 - 0x80) * 0x1000 +
                    (b2 - 0x80) * 0x40 + (b3 - 0x80)) :: utf8Lossy rest4
                else repl :: utf8Lossy (b3 :: rest4)
            else repl :: utf8Lossy (b2 :: rest3)
        else repl :: utf8Lossy (b1 :: rest2)
    else repl :: utf8Lossy rest

/-- Strict UTF-8 decoding, as Rust String::from_utf8: none on any invalid
byte sequence. -/
def utf8DecodeStrict : List Nat → Option (List Char)
  | [] => some []
  | b0 :: rest =>
    if b0 < 0x80 then
      match utf8DecodeStrict rest with
      | some cs => some (Char.ofNat b0 :: cs)
      | none => none
    else if b0 < 0xC2 then none
    else if b0 < 0xE0 then
      match rest with
      | [] => none
      | b1 :: rest2 =>
        if isCont b1 then
          match utf8DecodeStrict rest2 with
          | some cs => some (Char.ofNat ((b0 - 0xC0) * 0x40 + (b1 - 0x80)) :: cs)
          | none => none
        else none
    else if b0 < 0xF0 then
      match rest with
      | [] => none
      | b1 :: rest2 =>
        if cont3ok b0 b1 then
          match rest2 with
          | [] => none
          | b2 :: rest3 =>
            if isCont b2 then
              match utf8DecodeStrict rest3 with
              | some cs =>
                some (Char.ofNat ((b0 - 0xE0) * 0x1000 + (b1 - 0x80) * 0x40 +
                  (b2 - 0x80)) :: cs)
              | none => none
            else none
        else none
    else if b0 < 0xF5 then
      match rest with
      | [] => none
      | b1 :: rest2 =>
        if cont4ok b0 b1 then
          match rest2 with
          | [] => none
          | b2 :: rest3 =>
            if isCont b2 then
              match rest3 with
              | [] => none
              | b3 :: rest4 =>
                if isCont b3 then
                  match utf8DecodeStrict rest4 with
                  | some cs =>
                    some (Char.ofNat ((b0 - 0xF0) * 0x40000 + (b1 - 0x80) * 0x1000 +
                      (b2 - 0x80) * 0x40 + (b3 - 0x80)) :: cs)
                  | none => none
                else none
            else none
        else none
    else none

/-- The urlencoding::decode used by the source on metadata URL values:
UTF-8 encode, percent-decode the bytes (malformed escapes kept verbatim),
then strict UTF-8 validation of the result; none models FromUtf8Error. -/
def urlDecode (l : List Char) : Option (List Char) :=
  utf8DecodeStrict (decodeBinary (utf8Encode l))

/-- Lookup in an association list (models HashMap::get). -/
def assocGet {α β : Type} [DecidableEq α] (k : α) : List (α × β) → Option β
  | [] => none
  | (k', v) :: rest => if k' = k then some v else assocGet k rest

/-- Insert into an association list, replacing an existing binding of the
same key (models HashMap::insert / entry). -/
def assocInsert {α β : Type} [DecidableEq α] (k : α) (v : β) :
    List (α × β) → List (α × β)
  | [] => [(k, v)]
  | (k', v') :: rest =>
    if k' = k then (k, v) :: rest else (k', v') :: assocInsert k v rest

/-- The current track status (source enum TrackStatus). -/
inductive TrackStatus where
  | Playing : TrackStatus
  | Paused : TrackStatus
  | Stopped : TrackStatus
deriving DecidableEq, Repr

/-- The source's error enum PlayerctlError; each constructor carries the
text context the source embeds in it. -/
inductive PlayerctlError where
  | IoError : List Char → PlayerctlError
  | CommandError : List Char → PlayerctlError
  | ParseLengthError : List Char → PlayerctlError
  | ParseUrlError : List Char → PlayerctlError
  | Other : List Char → PlayerctlError
deriving DecidableEq, Repr

instance exceptDecEq {ε α : Type} [DecidableEq ε] [DecidableEq α] :
    DecidableEq (Except ε α) := fun x y =>
  match x, y with
  | .ok a, .ok b =>
    if h : a = b then .isTrue (by rw [h])
    else .isFalse (fun hc => h (Except.ok.inj hc))
  | .ok _, .error _ => .isFalse (fun hc => Except.noConfusion hc)
  | .error _, .ok _ => .isFalse (fun hc => Except.noConfusion hc)
  | .error e, .error f =>
    if h : e = f then .isTrue (by rw [h])
    else .isFalse (fun hc => h (Except.error.inj hc))

/-- Player metadata record (source struct PlayerMetadata). -/
structure PlayerMetadata where
  mpris_trackid : Option (List Char) := none
  mpris_art_url : Option (List Char) := none
  mpris_length : Option Nat := none
  xesam_title : Option (List Char) := none
  xesam_album : Option (List Char) := none
  xesam_artist : Option (List Char) := none
  xesam_album_artist : Option (List Char) := none
  xesam_url : Option (List Char) := none
  xesam_content_created : Option (List Char) := none
  raw : List (List Char × List Char) := []
deriving DecidableEq, Repr

/-- The Default::default PlayerMetadata record: all fields absent. -/
def defaultMeta : PlayerMetadata := {}

/-- Outcome of one external invocation: exit-status success flag, the Display
text of the exit status, and the captured stdout and stderr byte streams. -/
structure Output where
  success : Bool
  statusDisplay : List Char
  stdout : List Nat
  stderr : List Nat

/-- The source's run_command outcome handling: on success, the stdout bytes
are lossily UTF-8 decoded and trimmed; on failure, a CommandError is built
from the exit-status display and the lossily decoded stderr. -/
def run_command (out : Output) : Except PlayerctlError (List Char) :=
  if out.success then Except.ok (rustTrim (utf8Lossy out.stdout))
  else
    Except.error (PlayerctlError.CommandError
      (("Command failed with status ").toList ++ out.statusDisplay ++
        (": ").toList ++ utf8Lossy out.stderr))

/-- A unit operation (play, pause, play_pause, stop, next, previous): run the
command and discard the stdout text. -/
def unitOp (out : Output) : Except PlayerctlError Unit :=
  match run_command out with
  | .ok _ => .ok ()
  | .error e => .error e

/-- Status text matching from Playerctl::status: trim, then compare against
the two recognized literals; everything else is Stopped. -/
def statusOfStdout (s : List Char) : TrackStatus :=
  if rustTrim s = ("Playing").toList then TrackStatus.Playing
  else if rustTrim s = ("Paused").toList then TrackStatus.Paused
  else TrackStatus.Stopped

/-- The position-query delimiter from Playerctl::get_position. -/
def posDelim : List Char := (";-;").toList

/-- Line loop of Playerctl::get_position: split each line at the first
delimiter occurrence, skip lines without it, parse the position as u64
(a failure aborts), insert into the map (replacing prior bindings). -/
def positionLoop : List (List Char) → List (List Char × Nat) →
    Except PlayerctlError (List (List Char × Nat))
  | [], m => .ok m
  | l :: ls, m =>
    match splitOnceSeq posDelim l with
    | none => positionLoop ls m
    | some (name, pos) =>
      match parseU64 pos with
      | some n => positionLoop ls (assocInsert name n m)
      | none => .error (PlayerctlError.ParseLengthError pos)

/-- Playerctl::get_position applied to the (already trimmed) stdout text. -/
def positionOfStdout (s : List Char) : Except PlayerctlError (List (List Char × Nat)) :=
  positionLoop (rustLines s) []

/-- The match on the key in Playerctl::metadata: a recognized key sets its
typed field (URL values percent-decoded, the length parsed as u64, failures
aborting); an unrecognized key changes nothing. -/
def processKey (rec : PlayerMetadata) (key val : List Char) :
    Except PlayerctlError PlayerMetadata :=
  if key = ("mpris:artUrl").toList then
    match urlDecode val with
    | some d => .ok { rec with mpris_art_url := some d }
    | none => .error (PlayerctlError.ParseUrlError val)
  else if key = ("mpris:length").toList then
    match parseU64 val with
    | some n => .ok { rec with mpris_length := some n }
    | none => .error (PlayerctlError.ParseLengthError val)
  else if key = ("mpris:trackid").toList then .ok { rec with mpris_trackid := some val }
  else if key = ("xesam:album").toList then .ok { rec with xesam_album := some val }
  else if key = ("xesam:albumArtist").toList then
    .ok { rec with xesam_album_artist := some val }
  else if key = ("xesam:artist").toList then .ok { rec with xesam_artist := some val }
  else if key = ("xesam:contentCreated").toList then
    .ok { rec with xesam_content_created := some val }
  else if key = ("xesam:title").toList then .ok { rec with xesam_title := some val }
  else if key = ("xesam:url").toList then
    match urlDecode val with
    | some d => .ok { rec with xesam_url := some d }
    | none => .error (PlayerctlError.ParseUrlError val)
  else .ok rec

/-- Processing of one extracted (key, value) pair against one player's
record: the key match above, after which the pair is always inserted into
the raw map (as the source does after its match). -/
def processTriple (rec : PlayerMetadata) (key val : List Char) :
    Except PlayerctlError PlayerMetadata :=
  match processKey rec key val with
  | .ok r => .ok { r with raw := assocInsert key val r.raw }
  | .error e => .error e

/-- Processing of one stdout line in Playerctl::metadata: split off the
player name at the first space, trim ASCII whitespace from the remainder,
split off the key at the first space, trim ASCII whitespace from the value;
a line failing either split is skipped; otherwise the triple is applied to
that player's record (created as default when first seen). -/
def processLine (data : List (List Char × PlayerMetadata)) (line : List Char) :
    Except PlayerctlError (List (List Char × PlayerMetadata)) :=
  match splitOnce ' ' line with
  | none => .ok data
  | some (player, b) =>
    match splitOnce ' ' (b.dropWhile isAsciiWs) with
    | none => .ok data
    | some (key, val) =>
      match processTriple ((assocGet player data).getD defaultMeta) key
          (val.dropWhile isAsciiWs) with
      | .ok r => .ok (assocInsert player r data)
      | .error e => .error e

/-- Line loop of Playerctl::metadata over all lines. -/
def metadataLoop : List (List Char) → List (List Char × PlayerMetadata) →
    Except PlayerctlError (List (List Char × PlayerMetadata))
  | [], data => .ok data
  | l :: ls, data =>
    match processLine data l with
    | .ok d => metadataLoop ls d
    | .error e => .error e

/-- Playerctl::metadata applied to the (already trimmed) stdout text. -/
def metadataOfStdout (s : List Char) :
    Except PlayerctlError (List (List Char × PlayerMetadata)) :=
  metadataLoop (rustLines s) []

namespace Playerctl

/-- Playerctl::status composed with run_command. -/
def status (out : Output) : Except PlayerctlError TrackStatus :=
  match run_command out with
  | .ok s => .ok (statusOfStdout s)
  | .error e => .error e

/-- Playerctl::get_position composed with run_command. -/
def get_position (out : Output) : Except PlayerctlError (List (List Char × Nat)) :=
  match run_command out with
  | .ok s => positionOfStdout s
  | .error e => .error e

/-- Playerctl::metadata composed with run_command. -/
def metadata (out : Output) : Except PlayerctlError (List (List Char × PlayerMetadata)) :=
  match run_command out with
  | .ok s => metadataOfStdout s
  | .error e => .error e

end Playerctl

/-- A finite f32 value, modelled as its IEEE sign bit together with its
magnitude (the magnitude of a finite float is an exact rational). Negative
zero is sign true with magnitude zero and is distinct from positive zero,
exactly as in the machine representation. -/
structure F32 where
  neg : Bool
  mag : ℚ
deriving DecidableEq, Repr

/-- IEEE negation of a finite float: flip the sign bit (also on zero). -/
def f32Neg (x : F32) : F32 := ⟨!x.neg, x.mag⟩

/-- The source's comparison secs < 0.0 on a finite float: strictly less than
zero iff the sign bit is set and the magnitude is positive (IEEE compares
-0.0 as equal to 0.0, so -0.0 < 0.0 is false). -/
def f32LtZero (x : F32) : Bool := x.neg && decide (0 < x.mag)

/-- Rust Display of a finite f32: a minus sign exactly when the sign bit is
set (so -0.0 renders as -0), followed by the decimal digits of the
magnitude, whose rendering is the abstract parameter fmt. -/
def f32Display (fmt : ℚ → String) (x : F32) : String :=
  if x.neg then "-" ++ fmt x.mag else fmt x.mag

namespace Playerctl

/-- Command string built by Playerctl::position: branch on secs < 0.0, then
format the Display of -secs with suffix minus, or of secs itself with suffix
plus. -/
def positionCommand (fmt : ℚ → String) (secs : F32) : String :=
  if f32LtZero secs then "position " ++ f32Display fmt (f32Neg secs) ++ "-"
  else "position " ++ f32Display fmt secs ++ "+"

/-- Command string built by Playerctl::volume, same shape as positionCommand. -/
def volumeCommand (fmt : ℚ → String) (percent : F32) : String :=
  if f32LtZero percent then "volume " ++ f32Display fmt (f32Neg percent) ++ "-"
  else "volume " ++ f32Display fmt percent ++ "+"

end Playerctl

/-! ### Helper lemmas -/

theorem splitOnce_sound (sep : Char) :
    ∀ l a b, splitOnce sep l = some (a, b) →
      l = a ++ sep :: b ∧ a.all (fun c => !(c = sep)) = true := by
  intro l
  induction l with
  | nil => intro a b h; simp [splitOnce] at h
  | cons c rest ih =>
    intro a b h
    unfold splitOnce at h
    by_cases hc : c = sep
    · rw [if_pos hc] at h
      injection h with h'
      injection h' with h1 h2
      subst h1; subst h2; subst hc
      exact ⟨rfl, rfl⟩
    · rw [if_neg hc] at h
      cases hrec : splitOnce sep rest with
      | none => rw [hrec] at h; cases h
      | some ab =>
        obtain ⟨a', b'⟩ := ab
        rw [hrec] at h
        injection h with h'
        injection h' with h1 h2
        subst h1; subst h2
        obtain ⟨heq, hall⟩ := ih a' b' hrec
        refine ⟨by rw [heq]; rfl, ?_⟩
        simp [List.all_cons, hall, hc]

theorem splitOnceSeq_nil_of_ne (pat : List Char) (hp : pat ≠ []) :
    splitOnceSeq pat [] = none := by
  unfold splitOnceSeq
  rw [if_neg]
  intro hpre
  exact hp (List.prefix_nil.mp (List.isPrefixOf_iff_prefix.mp hpre))

theorem splitOnceSeq_sound (pat : List Char) (hp : pat ≠ []) :
    ∀ l a b, splitOnceSeq pat l = some (a, b) →
      l = a ++ pat ++ b ∧ splitOnceSeq pat a = none := by
  intro l
  induction l with
  | nil => intro a b h; rw [splitOnceSeq_nil_of_ne pat hp] at h; cases h
  | cons c rest ih =>
    intro a b h
    unfold splitOnceSeq at h
    by_cases hpre : pat.isPrefixOf (c :: rest)
    · rw [if_pos hpre] at h
      injection h with h'
      injection h' with h1 h2
      subst h1; subst h2
      have hpref := List.isPrefixOf_iff_prefix.mp hpre
      have := List.prefix_iff_eq_append.mp hpref
      exact ⟨by rw [List.nil_append]; exact this.symm, splitOnceSeq_nil_of_ne pat hp⟩
    · rw [if_neg hpre] at h
      cases hrec : splitOnceSeq pat rest with
      | none => rw [hrec] at h; cases h
      | some ab =>
        obtain ⟨a', b'⟩ := ab
        rw [hrec] at h
        injection h with h'
        injection h' with h1 h2
        subst h1; subst h2
        obtain ⟨heq, hnone⟩ := ih a' b' hrec
        have hl : c :: rest = (c :: a') ++ pat ++ b' := by rw [heq]; rfl
        refine ⟨hl, ?_⟩
        unfold splitOnceSeq
        rw [if_neg ?hne]
        case hne =>
          intro hpre'
          apply hpre
          apply List.isPrefixOf_iff_prefix.mpr
          have h1 : pat <+: c :: a' := List.isPrefixOf_iff_prefix.mp hpre'
          have h2 : (c :: a') <+: c :: rest := by
            rw [hl, List.append_assoc]
            exact List.prefix_append _ _
          exact h1.trans h2
        rw [hnone]

theorem assocGet_insert_self {α β : Type} [DecidableEq α] (k : α) (v : β) :
    ∀ m : List (α × β), assocGet k (assocInsert k v m) = some v := by
  intro m
  induction m with
  | nil => simp [assocGet, assocInsert]
  | cons p rest ih =>
    obtain ⟨k', v'⟩ := p
    unfold assocInsert
    by_cases hk : k' = k
    · rw [if_pos hk]; simp [assocGet]
    · rw [if_neg hk]; unfold assocGet; rw [if_neg hk]; exact ih
theorem dropWhile_all_nil {p : Char → Bool} :
    ∀ l : List Char, l.all p = true → l.dropWhile p = [] := by
  intro l h
  induction l with
  | nil => rfl
  | cons c rest ih =>
    simp only [List.all_cons, Bool.and_eq_true] at h
    simp [List.dropWhile_cons, h.1, ih h.2]

theorem rustTrim_pad (s pre post : List Char)
    (hpre : pre.all isRustWs = true) (hpost : post.all isRustWs = true) :
    rustTrim (pre ++ s ++ post) = rustTrim s := by
  have hpre' : ∀ c ∈ pre, isRustWs c := by
    intro c hc; exact List.all_eq_true.mp hpre c hc
  have hpostrev : ∀ c ∈ post.reverse, isRustWs c := by
    intro c hc
    exact List.all_eq_true.mp hpost c (List.mem_reverse.mp hc)
  unfold rustTrim
  rw [List.append_assoc, List.dropWhile_append_of_pos hpre', List.dropWhile_append]
  by_cases hemp : (s.dropWhile isRustWs).isEmpty
  · rw [if_pos hemp]
    have h1 : s.dropWhile isRustWs = [] := by
      cases h : s.dropWhile isRustWs with
      | nil => rfl
      | cons a b => rw [h] at hemp; simp [List.isEmpty] at hemp
    have h2 : post.dropWhile isRustWs = [] := dropWhile_all_nil post hpost
    rw [h1, h2]
  · rw [if_neg hemp]
    rw [List.reverse_append, List.dropWhile_append_of_pos hpostrev]
theorem charUtf8_valid (c : Char) :
    c.toNat < 0xD800 ∨ (0xDFFF < c.toNat ∧ c.toNat < 0x110000) := c.valid

theorem utf8Lossy_charUtf8 (c : Char) (rest : List Nat) :
    utf8Lossy (charUtf8 c ++ rest) = c :: utf8Lossy rest := by
  have hv := charUtf8_valid c
  have hofn : Char.ofNat c.toNat = c := Char.ofNat_toNat c
  set n := c.toNat with hn
  by_cases h1 : n < 0x80
  · rw [charUtf8, ← hn, if_pos h1]
    show utf8Lossy (n :: rest) = c :: utf8Lossy rest
    conv_lhs => rw [utf8Lossy.eq_def]
    dsimp only []
    rw [if_pos h1, hofn]
  · by_cases h2 : n < 0x800
    · rw [charUtf8, ← hn, if_neg h1, if_pos h2]
      show utf8Lossy ((0xC0 + n / 0x40) :: (0x80 + n % 0x40) :: rest) = c :: utf8Lossy rest
      conv_lhs => rw [utf8Lossy.eq_def]
      dsimp only []
      rw [if_neg (by omega), if_neg (by omega), if_pos (by omega)]
      have hcont : isCont (0x80 + n % 0x40) = true := by
        simp only [isCont, Bool.and_eq_true, decide_eq_true_eq]
        omega
      rw [if_pos hcont]
      have : (0xC0 + n / 0x40 - 0xC0) * 0x40 + (0x80 + n % 0x40 - 0x80) = n := by omega
      rw [this, hofn]
    · by_cases h3 : n < 0x10000
      · rw [charUtf8, ← hn, if_neg h1, if_neg h2, if_pos h3]
        show utf8Lossy ((0xE0 + n / 0x1000) :: (0x80 + (n / 0x40) % 0x40) ::
          (0x80 + n % 0x40) :: rest) = c :: utf8Lossy rest
        conv_lhs => rw [utf8Lossy.eq_def]
        dsimp only []
        rw [if_neg (by omega), if_neg (by omega), if_neg (by omega), if_pos (by omega)]
        have hc3 : cont3ok (0xE0 + n / 0x1000) (0x80 + (n / 0x40) % 0x40) = true := by
          unfold cont3ok isCont
          by_cases he0 : (0xE0 + n / 0x1000 : Nat) = 0xE0
          · rw [if_pos he0]
            simp only [Bool.and_eq_true, decide_eq_true_eq]
            omega
          · rw [if_neg he0]
            by_cases hed : (0xE0 + n / 0x1000 : Nat) = 0xED
            · rw [if_pos hed]
              simp only [Bool.and_eq_true, decide_eq_true_eq]
              omega
            · rw [if_neg hed]
              simp only [Bool.and_eq_true, decide_eq_true_eq]
              omega
        rw [if_pos hc3]
        have hcont : isCont (0x80 + n % 0x40) = true := by
          simp only [isCont, Bool.and_eq_true, decide_eq_true_eq]
          omega
        rw [if_pos hcont]
        have : (0xE0 + n / 0x1000 - 0xE0) * 0x1000 + (0x80 + (n / 0x40) % 0x40 - 0x80) * 0x40 +
            (0x80 + n % 0x40 - 0x80) = n := by omega
        rw [this, hofn]
      · have h4 : n < 0x110000 := by omega
        rw [charUtf8, ← hn, if_neg h1, if_neg h2, if_neg h3]
        show utf8Lossy ((0xF0 + n / 0x40000) :: (0x80 + (n / 0x1000) % 0x40) ::
          (0x80 + (n / 0x40) % 0x40) :: (0x80 + n % 0x40) :: rest) = c :: utf8Lossy rest
        conv_lhs => rw [utf8Lossy.eq_def]
        dsimp only []
        rw [if_neg (by omega), if_neg (by omega), if_neg (by omega), if_neg (by omega),
          if_pos (by omega)]
        have hc4 : cont4ok (0xF0 + n / 0x40000) (0x80 + (n / 0x1000) % 0x40) = true := by
          unfold cont4ok isCont
          by_cases hf0 : (0xF0 + n / 0x40000 : Nat) = 0xF0
          · rw [if_pos hf0]
            simp only [Bool.and_eq_true, decide_eq_true_eq]
            omega
          · rw [if_neg hf0]
            by_cases hf4 : (0xF0 + n / 0x40000 : Nat) = 0xF4
            · rw [if_pos hf4]
              simp only [Bool.and_eq_true, decide_eq_true_eq]
              omega
            · rw [if_neg hf4]
              simp only [Bool.and_eq_true, decide_eq_true_eq]
              omega
        rw [if_pos hc4]
        have hcont2 : isCont (0x80 + (n / 0x40) % 0x40) = true := by
          simp only [isCont, Bool.and_eq_true, decide_eq_true_eq]
          omega
        rw [if_pos hcont2]
        have hcont3 : isCont (0x80 + n % 0x40) = true := by
          simp only [isCont, Bool.and_eq_true, decide_eq_true_eq]
          omega
        rw [if_pos hcont3]
        have : (0xF0 + n / 0x40000 - 0xF0) * 0x40000 + (0x80 + (n / 0x1000) % 0x40 - 0x80) * 0x1000 +
            (0x80 + (n / 0x40) % 0x40 - 0x80) * 0x40 + (0x80 + n % 0x40 - 0x80) = n := by omega
        rw [this, hofn]

theorem utf8Lossy_encode : ∀ l : List Char, utf8Lossy (utf8Encode l) = l := by
  intro l
  induction l with
  | nil => rfl
  | cons c cs ih =>
    have : utf8Encode (c :: cs) = charUtf8 c ++ utf8Encode cs := by
      simp [utf8Encode, List.flatMap_cons]
    rw [this, utf8Lossy_charUtf8, ih]

/-- A line that the position parser splits successfully but whose position
string fails u64 parsing. -/
def isBadPosLine (l : List Char) : Bool :=
  match splitOnceSeq posDelim l with
  | some (_, p) => (parseU64 p).isNone
  | none => false

/-- A metadata line that both splits succeed on, whose key is mpris:length
and whose (trimmed) value fails u64 parsing. -/
def isBadLengthLine (l : List Char) : Bool :=
  match splitOnce ' ' l with
  | none => false
  | some (_, b) =>
    match splitOnce ' ' (b.dropWhile isAsciiWs) with
    | none => false
    | some (k, v) =>
      k = ("mpris:length").toList && (parseU64 (v.dropWhile isAsciiWs)).isNone

/-- Whether an error is one of the two fatal parse errors of the metadata
parser. -/
def isParseErr (e : PlayerctlError) : Bool :=
  match e with
  | .ParseLengthError _ => true
  | .ParseUrlError _ => true
  | _ => false

/-- The nine metadata keys with typed fields. -/
def recognizedKey (k : List Char) : Bool :=
  k = ("mpris:artUrl").toList || k = ("mpris:length").toList ||
  k = ("mpris:trackid").toList || k = ("xesam:album").toList ||
  k = ("xesam:albumArtist").toList || k = ("xesam:artist").toList ||
  k = ("xesam:contentCreated").toList || k = ("xesam:title").toList ||
  k = ("xesam:url").toList

theorem processKey_error_kind (rec : PlayerMetadata) (key val : List Char)
    (e : PlayerctlError) (h : processKey rec key val = .error e) :
    isParseErr e = true := by
  unfold processKey at h
  repeat' split at h
  all_goals (try (injection h with h'; subst h'))
  all_goals (first | rfl | injection h)

theorem processKey_ok_raw (rec : PlayerMetadata) (key val : List Char)
    (r : PlayerMetadata) (h : processKey rec key val = .ok r) :
    r.raw = rec.raw := by
  unfold processKey at h
  repeat' split at h
  all_goals (try (injection h with h'; subst h'))
  all_goals (first | rfl | injection h)

theorem processKey_length_none (rec : PlayerMetadata) (val : List Char)
    (h : parseU64 val = none) :
    processKey rec (("mpris:length").toList) val =
      .error (PlayerctlError.ParseLengthError val) := by
  unfold processKey
  rw [if_neg (by decide), if_pos rfl, h]

theorem processTriple_length_none (rec : PlayerMetadata) (val : List Char)
    (h : parseU64 val = none) :
    processTriple rec (("mpris:length").toList) val =
      .error (PlayerctlError.ParseLengthError val) := by
  unfold processTriple
  rw [processKey_length_none rec val h]

theorem processTriple_error_kind (rec : PlayerMetadata) (key val : List Char)
    (e : PlayerctlError) (h : processTriple rec key val = .error e) :
    isParseErr e = true := by
  unfold processTriple at h
  split at h
  · cases h
  · rename_i heq
    injection h with h'
    subst h'
    exact processKey_error_kind _ _ _ _ heq

theorem processTriple_ok_raw (rec : PlayerMetadata) (key val : List Char)
    (r : PlayerMetadata) (h : processTriple rec key val = .ok r) :
    r.raw = assocInsert key val rec.raw := by
  unfold processTriple at h
  split at h
  · rename_i r0 heq
    injection h with h'
    subst h'
    show assocInsert key val r0.raw = assocInsert key val rec.raw
    rw [processKey_ok_raw rec key val r0 heq]
  · cases h

theorem processLine_error_kind (data : List (List Char × PlayerMetadata))
    (l : List Char) (e : PlayerctlError) (h : processLine data l = .error e) :
    isParseErr e = true := by
  unfold processLine at h
  split at h
  · cases h
  · split at h
    · cases h
    · split at h
      · cases h
      · rename_i heq
        injection h with h'
        subst h'
        exact processTriple_error_kind _ _ _ _ heq

theorem processLine_badLength (l : List Char) (hl : isBadLengthLine l = true) :
    ∀ data, ∃ t, processLine data l = .error (PlayerctlError.ParseLengthError t) := by
  intro data
  unfold isBadLengthLine at hl
  split at hl
  · cases hl
  · rename_i p b hsplit1
    split at hl
    · cases hl
    · rename_i k v hsplit2
      simp only [Bool.and_eq_true, decide_eq_true_eq, Option.isNone_iff_eq_none] at hl
      obtain ⟨hk, hparse⟩ := hl
      refine ⟨v.dropWhile isAsciiWs, ?_⟩
      subst hk
      unfold processLine
      rw [hsplit1]
      dsimp only []
      rw [hsplit2]
      dsimp only []
      rw [processTriple_length_none _ _ hparse]

theorem metadataLoop_badLength :
    ∀ (ls : List (List Char)) (data : List (List Char × PlayerMetadata)),
      (∃ l ∈ ls, isBadLengthLine l = true) →
      ∃ e, metadataLoop ls data = .error e ∧ isParseErr e = true := by
  intro ls
  induction ls with
  | nil => intro data h; obtain ⟨l, hl, _⟩ := h; cases hl
  | cons l0 ls' ih =>
    intro data h
    obtain ⟨l, hl, hbad⟩ := h
    rcases List.mem_cons.mp hl with heq | hmem
    · subst heq
      obtain ⟨t, ht⟩ := processLine_badLength l hbad data
      refine ⟨PlayerctlError.ParseLengthError t, ?_, rfl⟩
      simp only [metadataLoop, ht]
    · cases hpl : processLine data l0 with
      | ok d =>
        obtain ⟨e, he, hkind⟩ := ih d ⟨l, hmem, hbad⟩
        refine ⟨e, ?_, hkind⟩
        simp only [metadataLoop, hpl]
        exact he
      | error e =>
        refine ⟨e, ?_, processLine_error_kind _ _ _ hpl⟩
        simp only [metadataLoop, hpl]

theorem positionLoop_bad :
    ∀ (ls : List (List Char)) (m : List (List Char × Nat)),
      (∃ l ∈ ls, isBadPosLine l = true) →
      ∃ t, positionLoop ls m = .error (PlayerctlError.ParseLengthError t) := by
  intro ls
  induction ls with
  | nil => intro m h; obtain ⟨l, hl, _⟩ := h; cases hl
  | cons l0 ls' ih =>
    intro m h
    obtain ⟨l, hl, hbad⟩ := h
    rcases List.mem_cons.mp hl with heq | hmem
    · subst heq
      unfold isBadPosLine at hbad
      split at hbad
      · rename_i nm p hsplit
        simp only [Option.isNone_iff_eq_none] at hbad
        refine ⟨p, ?_⟩
        simp only [positionLoop, hsplit, hbad]
      · cases hbad
    · cases hsplit : splitOnceSeq posDelim l0 with
      | none =>
        obtain ⟨t, ht⟩ := ih m ⟨l, hmem, hbad⟩
        refine ⟨t, ?_⟩
        simp only [positionLoop, hsplit]
        exact ht
      | some ab =>
        obtain ⟨nm, p⟩ := ab
        cases hparse : parseU64 p with
        | some n =>
          obtain ⟨t, ht⟩ := ih (assocInsert nm n m) ⟨l, hmem, hbad⟩
          refine ⟨t, ?_⟩
          simp only [positionLoop, hsplit, hparse]
          exact ht
        | none =>
          refine ⟨p, ?_⟩
          simp only [positionLoop, hsplit, hparse]

/-! ### Claim theorems -/

/-- C1: For every stdout text, the metadata parser processes it line by line:
each line is split at the first space into player name and remainder, the
remainder has leading whitespace trimmed and is split at the first space into
key and value, the value has leading whitespace trimmed and is kept whole
(embedded spaces are not re-split); any line for which either split fails is
skipped without error; for a recognized key the corresponding typed field of
that player's record is set from the value. -/
theorem claim_C1 :
    (∀ l a b, splitOnce ' ' l = some (a, b) →
      l = a ++ ' ' :: b ∧ a.all (fun c => !(c = ' ')) = true) ∧
    (∀ data line, splitOnce ' ' line = none → processLine data line = .ok data) ∧
    (∀ data line p b, splitOnce ' ' line = some (p, b) →
      splitOnce ' ' (b.dropWhile isAsciiWs) = none → processLine data line = .ok data) ∧
    (∀ data line p b k v, splitOnce ' ' line = some (p, b) →
      splitOnce ' ' (b.dropWhile isAsciiWs) = some (k, v) →
      processLine data line =
        match processTriple ((assocGet p data).getD defaultMeta) k
            (v.dropWhile isAsciiWs) with
        | .ok r => .ok (assocInsert p r data)
        | .error e => .error e) ∧
    (∀ rec v, processTriple rec (("mpris:trackid").toList) v =
      .ok { rec with
            mpris_trackid := some v,
            raw := assocInsert (("mpris:trackid").toList) v rec.raw }) ∧
    (∀ rec v, processTriple rec (("xesam:album").toList) v =
      .ok { rec with
            xesam_album := some v,
            raw := assocInsert (("xesam:album").toList) v rec.raw }) ∧
    (∀ rec v, processTriple rec (("xesam:albumArtist").toList) v =
      .ok { rec with
            xesam_album_artist := some v,
            raw := assocInsert (("xesam:albumArtist").toList) v rec.raw }) ∧
    (∀ rec v, processTriple rec (("xesam:artist").toList) v =
      .ok { rec with
            xesam_artist := some v,
            raw := assocInsert (("xesam:artist").toList) v rec.raw }) ∧
    (∀ rec v, processTriple rec (("xesam:contentCreated").toList) v =
      .ok { rec with
            xesam_content_created := some v,
            raw := assocInsert (("xesam:contentCreated").toList) v rec.raw }) ∧
    (∀ rec v, processTriple rec (("xesam:title").toList) v =
      .ok { rec with
            xesam_title := some v,
            raw := assocInsert (("xesam:title").toList) v rec.raw }) ∧
    (∀ rec v n, parseU64 v = some n →
      processTriple rec (("mpris:length").toList) v =
        .ok { rec with
              mpris_length := some n,
              raw := assocInsert (("mpris:length").toList) v rec.raw }) ∧
    (∀ rec v d, urlDecode v = some d →
      processTriple rec (("mpris:artUrl").toList) v =
        .ok { rec with
              mpris_art_url := some d,
              raw := assocInsert (("mpris:artUrl").toList) v rec.raw }) ∧
    (∀ rec v d, urlDecode v = some d →
      processTriple rec (("xesam:url").toList) v =
        .ok { rec with
              xesam_url := some d,
              raw := assocInsert (("xesam:url").toList) v rec.raw }) ∧
    metadataOfStdout
        (("mpv mpris:length 5000000\nmpv xesam:title Song A\nfirefox xesam:title Song B\n").toList) =
      .ok [(("mpv").toList,
        { defaultMeta with
          mpris_length := some 5000000,
          xesam_title := some (("Song A").toList),
          raw := [((("mpris:length").toList), ("5000000").toList),
                  ((("xesam:title").toList), ("Song A").toList)] }),
        (("firefox").toList,
        { defaultMeta with
          xesam_title := some (("Song B").toList),
          raw := [((("xesam:title").toList), ("Song B").toList)] })] := by
  refine ⟨splitOnce_sound ' ', ?_, ?_, ?_, ?_, ?_, ?_, ?_, ?_, ?_, ?_, ?_, ?_, by decide⟩
  · intro data line h
    unfold processLine
    rw [h]
  · intro data line p b h1 h2
    unfold processLine
    rw [h1]
    dsimp only []
    rw [h2]
  · intro data line p b k v h1 h2
    unfold processLine
    rw [h1]
    dsimp only []
    rw [h2]
  · intro rec v; rfl
  · intro rec v; rfl
  · intro rec v; rfl
  · intro rec v; rfl
  · intro rec v; rfl
  · intro rec v; rfl
  · intro rec v n h
    unfold processTriple processKey
    rw [if_neg (by decide), if_pos rfl, h]
  · intro rec v d h
    unfold processTriple processKey
    rw [if_pos rfl, h]
  · intro rec v d h
    unfold processTriple processKey
    rw [if_neg (by decide), if_neg (by decide), if_neg (by decide), if_neg (by decide),
      if_neg (by decide), if_neg (by decide), if_neg (by decide), if_neg (by decide),
      if_pos rfl, h]

/-- C1 witness: a line with no space is skipped, and a concrete mpris:length
value is parsed into the typed field. -/
theorem claim_C1_witness :
    processLine [] (("nospace").toList) = .ok [] ∧
    processTriple defaultMeta (("mpris:length").toList) (("42").toList) =
      .ok { defaultMeta with
            mpris_length := some 42,
            raw := assocInsert (("mpris:length").toList) (("42").toList)
              defaultMeta.raw } :=
  ⟨claim_C1.2.1 [] (("nospace").toList) (by decide),
   claim_C1.2.2.2.2.2.2.2.2.2.2.1 defaultMeta (("42").toList) 42 (by decide)⟩

/-- C2: For every stdout text, the position parser splits each line at the
first occurrence of the delimiter ;-; into player name and position string,
parses the position string as an unsigned 64-bit integer, and returns a
mapping from player name to position; a line with no delimiter is skipped
without affecting the entries produced from other lines; if the same player
name appears on several well-formed lines, the returned mapping holds the
value from the last such line. -/
theorem claim_C2 :
    (∀ m ls l, splitOnceSeq posDelim l = none →
      positionLoop (l :: ls) m = positionLoop ls m) ∧
    (∀ m ls l nm p n, splitOnceSeq posDelim l = some (nm, p) → parseU64 p = some n →
      positionLoop (l :: ls) m = positionLoop ls (assocInsert nm n m)) ∧
    (∀ l a b, splitOnceSeq posDelim l = some (a, b) →
      l = a ++ posDelim ++ b ∧ splitOnceSeq posDelim a = none) ∧
    (∀ (k : List Char) (v1 v2 : Nat) (m : List (List Char × Nat)),
      assocGet k (assocInsert k v2 (assocInsert k v1 m)) = some v2) ∧
    positionOfStdout (("mpv;-;12345\nfirefox;-;9999\n").toList) =
      .ok [(("mpv").toList, 12345), (("firefox").toList, 9999)] ∧
    positionOfStdout (("mpv;-;12345\ngarbage\nmpv;-;7").toList) =
      .ok [(("mpv").toList, 7)] := by
  refine ⟨?_, ?_, splitOnceSeq_sound posDelim (by decide), ?_, by decide, by decide⟩
  · intro m ls l h
    simp only [positionLoop, h]
  · intro m ls l nm p n h1 h2
    simp only [positionLoop, h1, h2]
  · intro k v1 v2 m
    rw [assocGet_insert_self]

/-- C2 witness: one well-formed line is split at the delimiter, parsed and
inserted. -/
theorem claim_C2_witness :
    positionLoop [(("mpv;-;5").toList)] [] =
      positionLoop [] (assocInsert (("mpv").toList) 5 []) :=
  claim_C2.2.1 [] [] (("mpv;-;5").toList) (("mpv").toList) (("5").toList) 5
    (by decide) (by decide)

/-- C3 counterexample: negative zero is a finite floating-point offset, and
at it the source's else branch formats the input itself, whose Display is
-0: the emitted token is position -0+, whose magnitude part is not the
absolute value 0 (whatever digit renderer is used, shown here for the one
rendering zero as 0). -/
theorem claim_C3_counterexample :
    Playerctl.positionCommand (fun _ => "0") (F32.mk true 0) = "position -0+" ∧
    Playerctl.volumeCommand (fun _ => "0") (F32.mk true 0) = "volume -0+" ∧
    Playerctl.positionCommand (fun _ => "0") (F32.mk true 0) ≠ "position 0+" ∧
    Playerctl.volumeCommand (fun _ => "0") (F32.mk true 0) ≠ "volume 0+" :=
  ⟨by decide, by decide, by decide, by decide⟩

/-- C3 (amended): For every finite floating-point offset, the seek operation
formats position-magnitude-suffix and the volume operation
volume-magnitude-suffix, where the suffix is + for every non-negative input
(including both zeros) and - for every strictly negative input; the
magnitude is the absolute value of the input in plain decimal for every
input except negative zero, for which the source formats the input itself
and emits -0. -/
theorem claim_C3 (fmt : ℚ → String) (secs : F32) :
    (secs.neg = true → 0 < secs.mag →
      Playerctl.positionCommand fmt secs = "position " ++ fmt secs.mag ++ "-" ∧
      Playerctl.volumeCommand fmt secs = "volume " ++ fmt secs.mag ++ "-") ∧
    (secs.neg = false →
      Playerctl.positionCommand fmt secs = "position " ++ fmt secs.mag ++ "+" ∧
      Playerctl.volumeCommand fmt secs = "volume " ++ fmt secs.mag ++ "+") ∧
    (secs.neg = true → secs.mag = 0 →
      Playerctl.positionCommand fmt secs = "position " ++ ("-" ++ fmt 0) ++ "+" ∧
      Playerctl.volumeCommand fmt secs = "volume " ++ ("-" ++ fmt 0) ++ "+") := by
  unfold Playerctl.positionCommand Playerctl.volumeCommand f32Display f32Neg f32LtZero
  refine ⟨?_, ?_, ?_⟩
  · intro hneg hmag
    rw [hneg]
    have hc : (true && decide (0 < secs.mag)) = true := by
      simp only [Bool.true_and, decide_eq_true_eq]
      exact hmag
    rw [if_pos hc, if_pos hc]
    exact ⟨rfl, rfl⟩
  · intro hneg
    rw [hneg]
    exact ⟨rfl, rfl⟩
  · intro hneg hmag
    rw [hneg, hmag]
    exact ⟨rfl, rfl⟩

/-- C3 witness: offset -10 formats as position 10-, offset 10 as volume 10+,
and negative zero as position -0+. -/
theorem claim_C3_witness :
    Playerctl.positionCommand (fun _ => "10") (F32.mk true 10) = "position 10-" ∧
    Playerctl.volumeCommand (fun _ => "10") (F32.mk false 10) = "volume 10+" ∧
    Playerctl.positionCommand (fun _ => "0") (F32.mk true 0) =
      "position " ++ ("-" ++ "0") ++ "+" :=
  ⟨((claim_C3 (fun _ => "10") (F32.mk true 10)).1 rfl (by norm_num)).1.trans rfl,
   ((claim_C3 (fun _ => "10") (F32.mk false 10)).2.1 rfl).2.trans rfl,
   ((claim_C3 (fun _ => "0") (F32.mk true 0)).2.2 rfl rfl).1⟩

/-- C4: For every stdout text, the status query trims surrounding whitespace
and returns Playing exactly when the trimmed text equals Playing
(case-sensitively), Paused exactly when it equals Paused, and Stopped for
every other text (including the empty string). -/
theorem claim_C4 (s : List Char) :
    (statusOfStdout s = TrackStatus.Playing ↔ rustTrim s = ("Playing").toList) ∧
    (statusOfStdout s = TrackStatus.Paused ↔ rustTrim s = ("Paused").toList) ∧
    (statusOfStdout s = TrackStatus.Stopped ↔
      (rustTrim s ≠ ("Playing").toList ∧ rustTrim s ≠ ("Paused").toList)) ∧
    statusOfStdout ([] : List Char) = TrackStatus.Stopped ∧
    (∀ out : Output, out.success = true →
      Playerctl.status out = .ok (statusOfStdout (rustTrim (utf8Lossy out.stdout)))) := by
  refine ⟨?_, ?_, ?_, by decide, ?_⟩
  · unfold statusOfStdout
    by_cases h1 : rustTrim s = ("Playing").toList
    · rw [if_pos h1]
      exact iff_of_true rfl h1
    · rw [if_neg h1]
      by_cases h2 : rustTrim s = ("Paused").toList
      · rw [if_pos h2]
        exact iff_of_false (by decide) h1
      · rw [if_neg h2]
        exact iff_of_false (by decide) h1
  · unfold statusOfStdout
    by_cases h1 : rustTrim s = ("Playing").toList
    · rw [if_pos h1]
      exact iff_of_false (by decide) (fun hp => absurd (h1.symm.trans hp) (by decide))
    · rw [if_neg h1]
      by_cases h2 : rustTrim s = ("Paused").toList
      · rw [if_pos h2]
        exact iff_of_true rfl h2
      · rw [if_neg h2]
        exact iff_of_false (by decide) h2
  · unfold statusOfStdout
    by_cases h1 : rustTrim s = ("Playing").toList
    · rw [if_pos h1]
      exact iff_of_false (by decide) (fun hc => hc.1 h1)
    · rw [if_neg h1]
      by_cases h2 : rustTrim s = ("Paused").toList
      · rw [if_pos h2]
        exact iff_of_false (by decide) (fun hc => hc.2 h2)
      · rw [if_neg h2]
        exact iff_of_true rfl ⟨h1, h2⟩
  · intro out h
    simp [Playerctl.status, run_command, h]

/-- C4 witness: a successful invocation whose stdout is the bytes of Playing
yields the Playing status. -/
theorem claim_C4_witness :
    Playerctl.status ⟨true, [], [80, 108, 97, 121, 105, 110, 103], []⟩ =
      .ok TrackStatus.Playing :=
  ((claim_C4 []).2.2.2.2 ⟨true, [], [80, 108, 97, 121, 105, 110, 103], []⟩
    rfl).trans (by decide)

/-- C5: For every invocation outcome, a unit operation succeeds if and only
if the exit status indicates success; on a non-success exit status it
returns a CommandError that carries the status code and the exact stderr
text of that invocation. -/
theorem claim_C5 (out : Output) :
    ((∃ u, unitOp out = .ok u) ↔ out.success = true) ∧
    (out.success = false →
      unitOp out = .error (PlayerctlError.CommandError
        (("Command failed with status ").toList ++ out.statusDisplay ++
          (": ").toList ++ utf8Lossy out.stderr))) ∧
    (∀ t, out.stderr = utf8Encode t → out.success = false →
      unitOp out = .error (PlayerctlError.CommandError
        (("Command failed with status ").toList ++ out.statusDisplay ++
          (": ").toList ++ t))) := by
  refine ⟨?_, ?_, ?_⟩
  · cases h : out.success
    · simp [unitOp, run_command, h]
    · simp [unitOp, run_command, h]
  · intro h
    simp [unitOp, run_command, h]
  · intro t ht h
    simp [unitOp, run_command, h, ht, utf8Lossy_encode]

/-- C5 witness: exit failure with stderr No players found yields the
CommandError carrying the status display and that exact text. -/
theorem claim_C5_witness :
    unitOp ⟨false, ("exit status: 1").toList, [],
        utf8Encode (("No players found").toList)⟩ =
      .error (PlayerctlError.CommandError
        (("Command failed with status ").toList ++ ("exit status: 1").toList ++
          (": ").toList ++ ("No players found").toList)) :=
  (claim_C5 ⟨false, ("exit status: 1").toList, [],
    utf8Encode (("No players found").toList)⟩).2.2
    (("No players found").toList) rfl rfl

/-- Whether a call result is a ParseLengthError. -/
def isLengthErrResult {α : Type} (r : Except PlayerctlError α) : Bool :=
  match r with
  | .error (.ParseLengthError _) => true
  | _ => false

/-- C6 counterexample: a stdout containing a recognized mpris:length line
whose value does not parse, preceded by an artUrl line whose value fails
URL decoding; the whole call fails, but with ParseUrlError rather than the
claimed ParseLengthError. -/
theorem claim_C6_counterexample :
    ((rustLines (("mpv mpris:artUrl h%FF\nmpv mpris:length abc").toList)).any
        isBadLengthLine) = true ∧
    metadataOfStdout (("mpv mpris:artUrl h%FF\nmpv mpris:length abc").toList) =
      .error (PlayerctlError.ParseUrlError (("h%FF").toList)) ∧
    isLengthErrResult
      (metadataOfStdout (("mpv mpris:artUrl h%FF\nmpv mpris:length abc").toList)) =
      false :=
  ⟨by decide, by decide, by decide⟩

/-- C6 (amended): a well-formed position line with an unparseable position
string makes the whole position call fail with ParseLengthError; a
recognized mpris:length line with an unparseable value makes the whole
metadata call fail with a fatal parse error (ParseLengthError, unless an
earlier line fails URL decoding first, in which case ParseUrlError); in
either case no partial mapping is returned. -/
theorem claim_C6 :
    (∀ s : List Char, (∃ l ∈ rustLines s, isBadPosLine l = true) →
      ∃ t, positionOfStdout s = .error (PlayerctlError.ParseLengthError t)) ∧
    (∀ s : List Char, (∃ l ∈ rustLines s, isBadLengthLine l = true) →
      ∃ e, metadataOfStdout s = .error e ∧ isParseErr e = true) ∧
    metadataOfStdout (("mpv mpris:length abc").toList) =
      .error (PlayerctlError.ParseLengthError (("abc").toList)) := by
  refine ⟨?_, ?_, by decide⟩
  · intro s h
    exact positionLoop_bad (rustLines s) [] h
  · intro s h
    exact metadataLoop_badLength (rustLines s) [] h

/-- C6 witness: the concrete bad position line mpv;-;abc aborts the position
call with ParseLengthError. -/
theorem claim_C6_witness :
    ∃ t, positionOfStdout (("mpv;-;abc").toList) =
      .error (PlayerctlError.ParseLengthError t) :=
  claim_C6.1 (("mpv;-;abc").toList) ⟨("mpv;-;abc").toList, by decide, by decide⟩

/-- C7 counterexample: a metadata line whose artUrl value ends in the
invalid escape %2 does not fail; the escape is kept verbatim and the call
succeeds. -/
theorem claim_C7_counterexample :
    metadataOfStdout (("mpv mpris:artUrl http://x/%2").toList) =
      .ok [(("mpv").toList,
        { defaultMeta with
          mpris_art_url := some (("http://x/%2").toList),
          raw := [((("mpris:artUrl").toList), ("http://x/%2").toList)] })] := by
  decide

/-- C7 (amended): for a metadata line whose key is mpris:artUrl or
xesam:url, an invalid percent-escape sequence is kept verbatim and does not
by itself cause failure; percent-decoding fails, and the whole metadata call
returns ParseUrlError, exactly when the percent-decoded byte sequence is not
valid UTF-8 (for example a %FF escape). -/
theorem claim_C7 :
    (∀ rec val, urlDecode val = none →
      processTriple rec (("mpris:artUrl").toList) val =
        .error (PlayerctlError.ParseUrlError val) ∧
      processTriple rec (("xesam:url").toList) val =
        .error (PlayerctlError.ParseUrlError val)) ∧
    urlDecode (("http://x/%2").toList) = some (("http://x/%2").toList) ∧
    urlDecode (("a%FFb").toList) = none ∧
    metadataOfStdout (("mpv xesam:url a%FFb").toList) =
      .error (PlayerctlError.ParseUrlError (("a%FFb").toList)) := by
  refine ⟨?_, by decide, by decide, by decide⟩
  intro rec val h
  constructor
  · unfold processTriple processKey
    rw [if_pos rfl, h]
  · unfold processTriple processKey
    rw [if_neg (by decide), if_neg (by decide), if_neg (by decide), if_neg (by decide),
      if_neg (by decide), if_neg (by decide), if_neg (by decide), if_neg (by decide),
      if_pos rfl, h]

/-- C7 witness: the undecodable value a%FFb aborts processing of an artUrl
pair with ParseUrlError. -/
theorem claim_C7_witness :
    processTriple defaultMeta (("mpris:artUrl").toList) (("a%FFb").toList) =
      .error (PlayerctlError.ParseUrlError (("a%FFb").toList)) :=
  (claim_C7.1 defaultMeta (("a%FFb").toList) (by decide)).1

/-- C8: For every successfully parsed (player, key, value) triple, the
metadata parser inserts the key/value pair into that player's raw mapping,
retaining the pair even when a typed field is also populated from the same
key; an unrecognized key populates only the raw mapping, never any typed
field, and never causes the call to fail. -/
theorem claim_C8 :
    (∀ rec key val, recognizedKey key = false →
      processTriple rec key val =
        .ok { rec with raw := assocInsert key val rec.raw }) ∧
    (∀ rec key val r, processTriple rec key val = .ok r →
      r.raw = assocInsert key val rec.raw) ∧
    metadataOfStdout (("mpv foo:bar hello world").toList) =
      .ok [(("mpv").toList,
        { defaultMeta with
          raw := [((("foo:bar").toList), ("hello world").toList)] })] := by
  refine ⟨?_, ?_, by decide⟩
  · intro rec key val h
    simp only [recognizedKey, Bool.or_eq_false_iff, decide_eq_false_iff_not] at h
    obtain ⟨⟨⟨⟨⟨⟨⟨⟨h1, h2⟩, h3⟩, h4⟩, h5⟩, h6⟩, h7⟩, h8⟩, h9⟩ := h
    unfold processTriple processKey
    rw [if_neg h1, if_neg h2, if_neg h3, if_neg h4, if_neg h5, if_neg h6, if_neg h7,
      if_neg h8, if_neg h9]
  · intro rec key val r h
    exact processTriple_ok_raw rec key val r h

/-- C8 witness: an unrecognized key populates only the raw mapping, and an
ok result of a recognized key still has the pair inserted into raw. -/
theorem claim_C8_witness :
    processTriple defaultMeta (("foo:bar").toList) (("x").toList) =
      .ok { defaultMeta with
            raw := assocInsert (("foo:bar").toList) (("x").toList) defaultMeta.raw } ∧
    ({ defaultMeta with
       xesam_title := some (("t").toList),
       raw := [((("xesam:title").toList), ("t").toList)] } : PlayerMetadata).raw =
      assocInsert (("xesam:title").toList) (("t").toList) defaultMeta.raw :=
  ⟨claim_C8.1 defaultMeta (("foo:bar").toList) (("x").toList) (by decide),
   claim_C8.2.1 defaultMeta (("xesam:title").toList) (("t").toList)
     { defaultMeta with
       xesam_title := some (("t").toList),
       raw := [((("xesam:title").toList), ("t").toList)] } (by decide)⟩

/-- C9: Invalid UTF-8 bytes in the captured stdout of a successful
invocation never cause any operation to fail: the bytes are converted
lossily (invalid sequences replaced by U+FFFD) before any parsing, so no
error of any kind arises from the transport encoding of stdout itself. -/
theorem claim_C9 (out : Output) (h : out.success = true) :
    Playerctl.status out = .ok (statusOfStdout (rustTrim (utf8Lossy out.stdout))) ∧
    Playerctl.get_position out = positionOfStdout (rustTrim (utf8Lossy out.stdout)) ∧
    Playerctl.metadata out = metadataOfStdout (rustTrim (utf8Lossy out.stdout)) ∧
    (∃ t, Playerctl.status out = .ok t) ∧
    utf8Lossy [0x61, 0xFF, 0x62] = [Char.ofNat 0x61, repl, Char.ofNat 0x62] := by
  refine ⟨?_, ?_, ?_, ?_, by decide⟩
  · simp [Playerctl.status, run_command, h]
  · simp [Playerctl.get_position, run_command, h]
  · simp [Playerctl.metadata, run_command, h]
  · exact ⟨statusOfStdout (rustTrim (utf8Lossy out.stdout)),
      by simp [Playerctl.status, run_command, h]⟩

/-- C9 witness: a successful invocation whose stdout bytes are not valid
UTF-8 still yields a status without error. -/
theorem claim_C9_witness :
    Playerctl.status ⟨true, [], [0xFF, 0x80, 0x50], []⟩ = .ok TrackStatus.Stopped :=
  ((claim_C9 ⟨true, [], [0xFF, 0x80, 0x50], []⟩ rfl).1).trans (by decide)

/-- C10: Every query result is invariant under adding leading or trailing
whitespace (including trailing newlines) to the entire stdout: the captured
output is trimmed once before any parser sees it, so parsing the padded text
yields the same status, position mapping, or metadata mapping. -/
theorem claim_C10 (s pre post : List Char)
    (hpre : pre.all isRustWs = true) (hpost : post.all isRustWs = true) :
    statusOfStdout (rustTrim (pre ++ s ++ post)) = statusOfStdout (rustTrim s) ∧
    positionOfStdout (rustTrim (pre ++ s ++ post)) = positionOfStdout (rustTrim s) ∧
    metadataOfStdout (rustTrim (pre ++ s ++ post)) = metadataOfStdout (rustTrim s) := by
  rw [rustTrim_pad s pre post hpre hpost]
  exact ⟨rfl, rfl, rfl⟩

/-- C10 witness: padding the Playing status text with whitespace leaves the
parsed status unchanged. -/
theorem claim_C10_witness :
    statusOfStdout (rustTrim (((" ").toList) ++ (("Playing").toList) ++ (("\n").toList))) =
      statusOfStdout (rustTrim (("Playing").toList)) :=
  (claim_C10 (("Playing").toList) ((" ").toList) (("\n").toList)
    (by decide) (by decide)).1
